import Mathlib

/-!
Shallow embedding of the Epiar input-event pipeline
(`Source/Input/input.cpp` together with the `Lua::Run` dispatch helper of
`Source/Utilities/lua.cpp`), plus the theorems settling the specification
claims about it.

The per-frame entry point `Input::Update` polls raw SDL events, translates
them into `InputEvent` values, synthesizes one `KEYPRESSED` event per held
key, routes the list through the fixed dispatch chain
(UI, Console, Hud, Lua callbacks), runs the mouse idle-fade check, clears
the list and returns the quit signal.  External collaborators (the UI,
console and hud stages, the option store, the Lua interpreter and the
timer) are passed in explicitly, which is the standard way to embed the
C++ globals they live in.
-/

set_option maxHeartbeats 1000000

/-- Key sub-states of an input event, in the order used by `input.cpp`
(the stream operator indexes a table with meanings up, down, pressed,
typed in that order). -/
inductive keyState where
  | KEYUP
  | KEYDOWN
  | KEYPRESSED
  | KEYTYPED
deriving DecidableEq

/-- Mouse sub-states of an input event.  The declaring header
`Input/input.h` is not part of the sources here; the constructors are the
ones `input.cpp` uses.  `UNHANDLED` is placed first, as the zero value of
the enum: `_UpdateHandleMouseDown`/`Up` guard their push with
`if (state)`, and the spec says unhandled transitions are silently
dropped, so the guard must reject exactly `UNHANDLED`. -/
inductive mouseState where
  | UNHANDLED
  | MOUSEMOTION
  | MOUSELUP
  | MOUSELDOWN
  | MOUSEMUP
  | MOUSEMDOWN
  | MOUSERUP
  | MOUSERDOWN
  | MOUSEWUP
  | MOUSEWDOWN
deriving DecidableEq

/-- The Epiar event value: a keyboard event carrying a key code and key
sub-state, or a mouse event carrying a mouse sub-state and coordinates
(`InputEvent` of `input.h`, fields `type`, `key`, `kstate`, `mstate`,
`mx`, `my`; the `type` tag is the constructor). -/
inductive InputEvent where
  | keyEvent (kstate : keyState) (key : Int)
  | mouseEvent (mstate : mouseState) (mx my : Int)
deriving DecidableEq

/-- One raw SDL sample, the cases of the `switch( event.type )` in
`Input::Update`. -/
inductive SDLEvent where
  | quit
  | keyDown (sym : Nat)
  | keyUp (sym : Nat)
  | mouseMotion (x y : Nat)
  | mouseButtonUp (button x y : Nat)
  | mouseButtonDown (button x y : Nat)
deriving DecidableEq

/-- SDL 1.2 keysym count (size of the held-key table). -/
abbrev SDLK_LAST : Nat := 323

/-- SDL 1.2 key code of the escape key. -/
abbrev SDLK_ESCAPE : Nat := 27

/-- SDL 1.2 key code of return. -/
abbrev SDLK_RETURN : Nat := 13

/-- SDL 1.2 key code of keypad enter. -/
abbrev SDLK_KP_ENTER : Nat := 271

/-- SDL 1.2 key code of the left shift key. -/
abbrev SDLK_LSHIFT : Nat := 304

/-- SDL 1.2 key code of the right shift key. -/
abbrev SDLK_RSHIFT : Nat := 303

/-- SDL 1.2 key code of letter a. -/
abbrev SDLK_a : Nat := 97

/-- SDL 1.2 key code of letter z. -/
abbrev SDLK_z : Nat := 122

/-- SDL 1.2 key code of digit 0. -/
abbrev SDLK_0 : Nat := 48

/-- SDL 1.2 key code of digit 9. -/
abbrev SDLK_9 : Nat := 57

/-- SDL 1.2 left mouse button id. -/
abbrev SDL_BUTTON_LEFT : Nat := 1

/-- SDL 1.2 middle mouse button id. -/
abbrev SDL_BUTTON_MIDDLE : Nat := 2

/-- SDL 1.2 right mouse button id. -/
abbrev SDL_BUTTON_RIGHT : Nat := 3

/-- SDL 1.2 wheel-up button id. -/
abbrev SDL_BUTTON_WHEELUP : Nat := 4

/-- SDL 1.2 wheel-down button id. -/
abbrev SDL_BUTTON_WHEELDOWN : Nat := 5

/-- The shifted-digit table `")!@#$%^&*("` of `Input::PushTypeEvent`,
indexed by `key - SDLK_0`; entries are the character codes. -/
def shiftedDigitTable : Nat → Int
  | 0 => 41
  | 1 => 33
  | 2 => 64
  | 3 => 35
  | 4 => 36
  | 5 => 37
  | 6 => 94
  | 7 => 38
  | 8 => 42
  | _ => 40

/-- The punctuation `switch(key)` of `Input::PushTypeEvent`, entered when
shift is held and the key is neither a letter nor a digit; the default
case leaves the letter at the raw key code.  Note the source maps
`SDLK_SEMICOLON` (59) to the character code of a semicolon (59) rather
than of a colon. -/
def shiftedPunct : Nat → Int
  | 39 => 34
  | 59 => 59
  | 96 => 126
  | 45 => 95
  | 47 => 63
  | 44 => 60
  | 46 => 62
  | 92 => 124
  | 91 => 123
  | 93 => 125
  | 61 => 43
  | k => Int.ofNat k

/-- `Input::PushTypeEvent`: synthesize the typed character for a key-down
and append the `KEYTYPED` event.  Shift state is read from the held-key
table as it is at call time. -/
def Input.PushTypeEvent (heldKeys : Nat → Bool) (events : List InputEvent)
    (key : Nat) : List InputEvent :=
  let letter : Int :=
    if heldKeys SDLK_LSHIFT || heldKeys SDLK_RSHIFT then
      if SDLK_a ≤ key ∧ key ≤ SDLK_z then Int.ofNat key - 32
      else if SDLK_0 ≤ key ∧ key ≤ SDLK_9 then shiftedDigitTable (key - SDLK_0)
      else shiftedPunct key
    else Int.ofNat key
  let letter : Int :=
    if key = SDLK_RETURN ∨ key = SDLK_KP_ENTER then 10 else letter
  events ++ [InputEvent.keyEvent keyState.KEYTYPED letter]

/-- The mutable per-pipeline state of `Input`: the held-key table, the
`lastMouseMove` tick stamp and the event list member. -/
structure InputState where
  heldKeys : Nat → Bool
  lastMouseMove : Nat
  events : List InputEvent

/-- `Input::_UpdateHandleKeyDown`: escape only raises the quit signal;
any other key appends its `KEYDOWN` event, the synthesized `KEYTYPED`
event, and marks the key held. -/
def Input.UpdateHandleKeyDown (s : InputState) (sym : Nat) :
    InputState × Bool :=
  if sym = SDLK_ESCAPE then (s, true)
  else
    ({ s with
        events := Input.PushTypeEvent s.heldKeys
          (s.events ++ [InputEvent.keyEvent keyState.KEYDOWN (Int.ofNat sym)]) sym,
        heldKeys := fun j => if j = sym then true else s.heldKeys j }, false)

/-- `Input::_UpdateHandleKeyUp`: escape only raises the quit signal; any
other key appends its `KEYUP` event and clears the held flag. -/
def Input.UpdateHandleKeyUp (s : InputState) (sym : Nat) :
    InputState × Bool :=
  if sym = SDLK_ESCAPE then (s, true)
  else
    ({ s with
        events := s.events ++ [InputEvent.keyEvent keyState.KEYUP (Int.ofNat sym)],
        heldKeys := fun j => if j = sym then false else s.heldKeys j }, false)

/-- `Input::_CheckMouseState`: map an SDL button id and direction to a
mouse sub-state; wheel buttons are unhandled in the down direction and
unknown button ids fall through to `UNHANDLED`. -/
def Input.CheckMouseState (button : Nat) (up : Bool) : mouseState :=
  if button = SDL_BUTTON_LEFT then
    (if up then mouseState.MOUSELUP else mouseState.MOUSELDOWN)
  else if button = SDL_BUTTON_MIDDLE then
    (if up then mouseState.MOUSEMUP else mouseState.MOUSEMDOWN)
  else if button = SDL_BUTTON_RIGHT then
    (if up then mouseState.MOUSERUP else mouseState.MOUSERDOWN)
  else if button = SDL_BUTTON_WHEELUP then
    (if up then mouseState.MOUSEWUP else mouseState.UNHANDLED)
  else if button = SDL_BUTTON_WHEELDOWN then
    (if up then mouseState.MOUSEWDOWN else mouseState.UNHANDLED)
  else mouseState.UNHANDLED

/-- `Input::_UpdateHandleMouseMotion`: append the motion event and stamp
`lastMouseMove` with the current tick (the `Video::EnableMouse` side
effect is recorded by the caller). -/
def Input.UpdateHandleMouseMotion (ticks : Nat) (s : InputState)
    (x y : Nat) : InputState :=
  { s with
      events := s.events ++
        [InputEvent.mouseEvent mouseState.MOUSEMOTION (Int.ofNat x) (Int.ofNat y)],
      lastMouseMove := ticks }

/-- `Input::_UpdateHandleMouseDown`: push the translated event unless the
sub-state is unhandled (`if (state)` in the source). -/
def Input.UpdateHandleMouseDown (s : InputState) (button x y : Nat) :
    InputState :=
  let state := Input.CheckMouseState button false
  if state = mouseState.UNHANDLED then s
  else
    { s with
        events := s.events ++
          [InputEvent.mouseEvent state (Int.ofNat x) (Int.ofNat y)] }

/-- `Input::_UpdateHandleMouseUp`: push the translated event unless the
sub-state is unhandled (`if (state)` in the source). -/
def Input.UpdateHandleMouseUp (s : InputState) (button x y : Nat) :
    InputState :=
  let state := Input.CheckMouseState button true
  if state = mouseState.UNHANDLED then s
  else
    { s with
        events := s.events ++
          [InputEvent.mouseEvent state (Int.ofNat x) (Int.ofNat y)] }

/-- Result of handling one raw SDL sample: the new state, the quit-signal
contribution and whether `Video::EnableMouse` was called. -/
structure StepOut where
  state : InputState
  quit : Bool
  enabledMouse : Bool

/-- One iteration of the `switch( event.type )` in the poll loop of
`Input::Update`. -/
def Input.UpdateStep (ticks : Nat) (s : InputState) : SDLEvent → StepOut
  | SDLEvent.quit => ⟨s, true, false⟩
  | SDLEvent.keyDown sym =>
      let r := Input.UpdateHandleKeyDown s sym
      ⟨r.1, r.2, false⟩
  | SDLEvent.keyUp sym =>
      let r := Input.UpdateHandleKeyUp s sym
      ⟨r.1, r.2, false⟩
  | SDLEvent.mouseMotion x y =>
      ⟨Input.UpdateHandleMouseMotion ticks s x y, false, true⟩
  | SDLEvent.mouseButtonUp b x y =>
      ⟨Input.UpdateHandleMouseUp s b x y, false, false⟩
  | SDLEvent.mouseButtonDown b x y =>
      ⟨Input.UpdateHandleMouseDown s b x y, false, false⟩

/-- The `while( SDL_PollEvent( &event ) )` loop of `Input::Update`,
accumulating the quit signal by disjunction (the source only ever turns
it on). -/
def Input.PollLoop (ticks : Nat) (s : InputState)
    (quitSignal enabledMouse : Bool) :
    List SDLEvent → InputState × Bool × Bool
  | [] => (s, quitSignal, enabledMouse)
  | e :: rest =>
      let o := Input.UpdateStep ticks s e
      Input.PollLoop ticks o.state (quitSignal || o.quit)
        (enabledMouse || o.enabledMouse) rest

/-- The held-key synthesis loop of `Input::Update`: one `KEYPRESSED`
event per key currently marked held, in key-code order. -/
def heldEvents (heldKeys : Nat → Bool) : List InputEvent :=
  ((List.range SDLK_LAST).filter heldKeys).map
    (fun k => InputEvent.keyEvent keyState.KEYPRESSED (Int.ofNat k))

/-- Whether the registry holds a binding for `e` (`std::map` key
lookup by the event's identity). -/
def containsKey (m : List (InputEvent × String)) (e : InputEvent) : Bool :=
  m.any (fun p => p.1 == e)

/-- `eventMappings.find( e )` projected to the bound command:
exact-identity lookup in the callback registry. -/
def mapFind (m : List (InputEvent × String)) (e : InputEvent) :
    Option String :=
  (m.find? (fun p => p.1 == e)).map Prod.snd

/-- `Input::RegisterCallBack`: `eventMappings.insert(make_pair(event,
command))`.  `std::map::insert` is a no-op when the key is already
present, so the first binding wins. -/
def Input.RegisterCallBack (m : List (InputEvent × String))
    (e : InputEvent) (command : String) : List (InputEvent × String) :=
  if containsKey m e then m else m ++ [(e, command)]

/-- `Input::UnRegisterCallBack`: `eventMappings.erase(event)`. -/
def Input.UnRegisterCallBack (m : List (InputEvent × String))
    (e : InputEvent) : List (InputEvent × String) :=
  m.filter (fun p => !(p.1 == e))

/-- `Lua::Run`'s observable effect on the log: when `luaL_dostring`
fails, an error line is logged; the function always returns to its
caller regardless.  `fails` is the external interpreter's failure
oracle. -/
def Lua.RunLogs (fails : String → Bool) (line : String) : List String :=
  if fails line then ["Error running " ++ line] else []

/-- `Input::HandleLuaCallBacks`: walk the remaining events in order; an
event with a registered binding requests one `Lua::Run` of the bound
command, an event without one is skipped.  Returns the sequence of
execution requests and the accumulated error log. -/
def Input.HandleLuaCallBacks (m : List (InputEvent × String))
    (fails : String → Bool) : List InputEvent → List String × List String
  | [] => ([], [])
  | e :: rest =>
      let tail := Input.HandleLuaCallBacks m fails rest
      match mapFind m e with
      | some command => (command :: tail.1, Lua.RunLogs fails command ++ tail.2)
      | none => tail

/-- The external collaborators of one `Input::Update` call: the three
consuming stages, `UI::Active`, the mouse-fade option and the Lua
failure oracle. -/
structure Collab where
  ui : List InputEvent → List InputEvent
  console : List InputEvent → List InputEvent
  hud : List InputEvent → List InputEvent
  uiActive : Bool
  mouseFade : Nat
  luaFails : String → Bool

/-- Everything one `Input::Update` call produces or observably does: the
returned quit signal, the event list as built by translation (the list
the dispatch chain starts from), the list remaining after each stage,
the Lua execution requests and logs, the two mouse-visibility side
effects, and the state carried to the next frame. -/
structure FrameOut where
  quit : Bool
  built : List InputEvent
  afterUI : List InputEvent
  afterConsole : List InputEvent
  afterHud : List InputEvent
  luaRequests : List String
  luaLogs : List String
  enabledMouse : Bool
  disabledMouse : Bool
  state : InputState

/-- Unsigned 32-bit subtraction, as in `Timer::GetTicks() -
lastMouseMove` on `Uint32` values. -/
def u32sub (a b : Nat) : Nat :=
  (a + (4294967296 - b % 4294967296)) % 4294967296

/-- `Input::Update`: poll and translate the raw samples, synthesize held
events, run the dispatch chain in its fixed order, fire the idle-fade
check, clear the event list and return the quit signal. -/
def Input.Update (m : List (InputEvent × String)) (c : Collab)
    (ticks : Nat) (s : InputState) (raw : List SDLEvent) : FrameOut :=
  let pl := Input.PollLoop ticks s false false raw
  let s1 := pl.1
  let built := s1.events ++ heldEvents s1.heldKeys
  let afterUI := c.ui built
  let afterConsole := c.console afterUI
  let afterHud := c.hud afterConsole
  let lua := Input.HandleLuaCallBacks m c.luaFails afterHud
  let disabled :=
    decide (u32sub ticks s1.lastMouseMove > c.mouseFade) && !c.uiActive
  { quit := pl.2.1
    built := built
    afterUI := afterUI
    afterConsole := afterConsole
    afterHud := afterHud
    luaRequests := lua.1
    luaLogs := lua.2
    enabledMouse := pl.2.2
    disabledMouse := disabled
    state := { s1 with events := [] } }

/-- Modelled from the spec: rank of a key sub-state in the fixed tag
order of the ordering relation (`InputEvent::operator<` lives in the
missing header `Input/input.h`). -/
def keyState.rank : keyState → Nat
  | keyState.KEYUP => 0
  | keyState.KEYDOWN => 1
  | keyState.KEYPRESSED => 2
  | keyState.KEYTYPED => 3

/-- Modelled from the spec: rank of a mouse sub-state in the fixed tag
order of the ordering relation (`InputEvent::operator<` lives in the
missing header `Input/input.h`). -/
def mouseState.rank : mouseState → Nat
  | mouseState.UNHANDLED => 0
  | mouseState.MOUSEMOTION => 1
  | mouseState.MOUSELUP => 2
  | mouseState.MOUSELDOWN => 3
  | mouseState.MOUSEMUP => 4
  | mouseState.MOUSEMDOWN => 5
  | mouseState.MOUSERUP => 6
  | mouseState.MOUSERDOWN => 7
  | mouseState.MOUSEWUP => 8
  | mouseState.MOUSEWDOWN => 9

/-- Modelled from the spec: the ordering relation of `InputEvent`
(`operator<`, declared in the missing header `Input/input.h`).  Per the
spec's ordering policy it compares the event kind first (key before
mouse), then the sub-state, then the remaining fields (key code; or x,
then y). -/
def InputEvent.ltb : InputEvent → InputEvent → Bool
  | InputEvent.keyEvent st k, InputEvent.keyEvent st' k' =>
      decide (st.rank < st'.rank) ||
        (st.rank == st'.rank && decide (k < k'))
  | InputEvent.keyEvent _ _, InputEvent.mouseEvent _ _ _ => true
  | InputEvent.mouseEvent _ _ _, InputEvent.keyEvent _ _ => false
  | InputEvent.mouseEvent st x y, InputEvent.mouseEvent st' x' y' =>
      decide (st.rank < st'.rank) ||
        (st.rank == st'.rank &&
          (decide (x < x') || (x == x' && decide (y < y'))))

/-- Number of `KeyEvent` values with sub-state `st` and key code `k` in
an event list. -/
def countKey (st : keyState) (k : Nat) (l : List InputEvent) : Nat :=
  l.count (InputEvent.keyEvent st (Int.ofNat k))

/-- Whether a raw sample is a key transition for key code `k`. -/
def touchesKey (k : Nat) : SDLEvent → Bool
  | SDLEvent.keyDown sym => sym == k
  | SDLEvent.keyUp sym => sym == k
  | _ => false

/-- Whether a raw sample is a key transition for the escape key. -/
def isEscapeTransition : SDLEvent → Bool
  | SDLEvent.keyDown sym => sym == SDLK_ESCAPE
  | SDLEvent.keyUp sym => sym == SDLK_ESCAPE
  | _ => false

/-- Whether a raw sample turns on the quit signal in `Input::Update`:
the `SDL_QUIT` window event or an escape key transition. -/
def raisesQuit : SDLEvent → Bool
  | SDLEvent.quit => true
  | e => isEscapeTransition e

/-- The registry invariant of `std::map`: pairwise distinct keys. -/
def uniqueKeys (m : List (InputEvent × String)) : Prop :=
  m.Pairwise (fun p q => p.1 ≠ q.1)

/-- A pipeline state with nothing held, tick stamp zero and an empty
event list (the state right after the `Input` constructor). -/
def state0 : InputState :=
  { heldKeys := fun _ => false, lastMouseMove := 0, events := [] }

/-- Concrete collaborators for witnesses: stages that consume nothing, an
inactive UI, a 500-tick fade option and an interpreter that never
fails. -/
def collab0 : Collab :=
  { ui := id, console := id, hud := id, uiActive := false,
    mouseFade := 500, luaFails := fun _ => false }

/-- A held-key table with only left shift held. -/
def shiftHeld : Nat → Bool := fun k => k == SDLK_LSHIFT

/-- Counting a key event in the held-key synthesis list: one hit exactly
when the sub-state is `KEYPRESSED` and the key is an in-range held
key. -/
theorem count_heldEvents (h : Nat → Bool) (st : keyState) (k : Nat) :
    (heldEvents h).count (InputEvent.keyEvent st (Int.ofNat k)) =
      if st = keyState.KEYPRESSED ∧ k < SDLK_LAST ∧ h k = true then 1
      else 0 := by
  unfold heldEvents
  by_cases hst : st = keyState.KEYPRESSED
  · subst hst
    have hinj : Function.Injective
        (fun k => InputEvent.keyEvent keyState.KEYPRESSED (Int.ofNat k)) := by
      intro a b hab
      simpa using hab
    rw [List.count_map_of_injective _ _ hinj]
    by_cases hk : k ∈ (List.range SDLK_LAST).filter h
    · have hmem := hk
      rw [List.mem_filter, List.mem_range] at hmem
      rw [List.count_eq_one_of_mem ((List.nodup_range _).filter h) hk]
      simp [hmem.1, hmem.2]
    · have hmem := hk
      rw [List.mem_filter, List.mem_range] at hmem
      rw [List.count_eq_zero_of_not_mem hk]
      rcases Decidable.em (k < SDLK_LAST ∧ h k = true) with hc | hc
      · exact absurd ⟨hc.1, hc.2⟩ hmem
      · simp [hc]
  · rw [List.count_eq_zero_of_not_mem]
    · simp [hst]
    · intro hmem
      rcases List.mem_map.mp hmem with ⟨j, _, hj⟩
      exact hst (InputEvent.keyEvent.injEq _ _ _ _ |>.mp hj.symm).1

/-- The quit signal accumulated by the poll loop is the disjunction of
the incoming signal with the quit-raising raw samples. -/
theorem pollLoop_quit (t : Nat) :
    ∀ (raw : List SDLEvent) (s : InputState) (q en : Bool),
      (Input.PollLoop t s q en raw).2.1 = (q || raw.any raisesQuit) := by
  intro raw
  induction raw with
  | nil => intro s q en; simp [Input.PollLoop]
  | cons e rest ih =>
      intro s q en
      cases e with
      | quit =>
          simp [Input.PollLoop, Input.UpdateStep, raisesQuit, ih,
            Bool.or_assoc]
      | keyDown sym =>
          by_cases hsym : sym = SDLK_ESCAPE
          · subst hsym
            simp [Input.PollLoop, Input.UpdateStep, Input.UpdateHandleKeyDown,
              raisesQuit, isEscapeTransition, ih, Bool.or_assoc]
          · have hb : (sym == SDLK_ESCAPE) = false := by simpa using hsym
            simp [Input.PollLoop, Input.UpdateStep, Input.UpdateHandleKeyDown,
              hsym, hb, raisesQuit, isEscapeTransition, ih, Bool.or_assoc]
      | keyUp sym =>
          by_cases hsym : sym = SDLK_ESCAPE
          · subst hsym
            simp [Input.PollLoop, Input.UpdateStep, Input.UpdateHandleKeyUp,
              raisesQuit, isEscapeTransition, ih, Bool.or_assoc]
          · have hb : (sym == SDLK_ESCAPE) = false := by simpa using hsym
            simp [Input.PollLoop, Input.UpdateStep, Input.UpdateHandleKeyUp,
              hsym, hb, raisesQuit, isEscapeTransition, ih, Bool.or_assoc]
      | mouseMotion x y =>
          simp [Input.PollLoop, Input.UpdateStep, raisesQuit,
            isEscapeTransition, ih]
      | mouseButtonUp b x y =>
          simp [Input.PollLoop, Input.UpdateStep, raisesQuit,
            isEscapeTransition, ih]
      | mouseButtonDown b x y =>
          simp [Input.PollLoop, Input.UpdateStep, raisesQuit,
            isEscapeTransition, ih]

/-- One poll-loop step for a raw sample that is not a key transition for
`k` leaves `k`'s held flag and the counts of `k`'s `KEYDOWN` and
`KEYPRESSED` events unchanged. -/
theorem updateStep_untouched (t k : Nat) (s : InputState) (e : SDLEvent)
    (he : touchesKey k e = false) :
    (Input.UpdateStep t s e).state.heldKeys k = s.heldKeys k ∧
    countKey keyState.KEYDOWN k (Input.UpdateStep t s e).state.events =
      countKey keyState.KEYDOWN k s.events ∧
    countKey keyState.KEYPRESSED k (Input.UpdateStep t s e).state.events =
      countKey keyState.KEYPRESSED k s.events := by
  cases e with
  | quit => exact ⟨rfl, rfl, rfl⟩
  | keyDown sym =>
      have hks : ¬sym = k := by simpa [touchesKey] using he
      have hk' : ¬k = sym := fun h => hks h.symm
      have hki : ¬(Int.ofNat k = Int.ofNat sym) := fun h => hk' (Int.ofNat.inj h)
      by_cases hesc : sym = SDLK_ESCAPE
      · simp [Input.UpdateStep, Input.UpdateHandleKeyDown, hesc]
      · refine ⟨?_, ?_, ?_⟩ <;>
          simp [Input.UpdateStep, Input.UpdateHandleKeyDown, hesc,
            Input.PushTypeEvent, countKey, List.count_append,
            List.count_cons, hk', hki]
  | keyUp sym =>
      have hks : ¬sym = k := by simpa [touchesKey] using he
      have hk' : ¬k = sym := fun h => hks h.symm
      have hki : ¬(Int.ofNat k = Int.ofNat sym) := fun h => hk' (Int.ofNat.inj h)
      by_cases hesc : sym = SDLK_ESCAPE
      · simp [Input.UpdateStep, Input.UpdateHandleKeyUp, hesc]
      · refine ⟨?_, ?_, ?_⟩ <;>
          simp [Input.UpdateStep, Input.UpdateHandleKeyUp, hesc,
            countKey, List.count_append, List.count_cons, hk', hki]
  | mouseMotion x y =>
      refine ⟨rfl, ?_, ?_⟩ <;>
        simp [Input.UpdateStep, Input.UpdateHandleMouseMotion, countKey,
          List.count_append, List.count_cons]
  | mouseButtonUp b x y =>
      by_cases hb : Input.CheckMouseState b true = mouseState.UNHANDLED
      · simp [Input.UpdateStep, Input.UpdateHandleMouseUp, hb]
      · refine ⟨?_, ?_, ?_⟩ <;>
          simp [Input.UpdateStep, Input.UpdateHandleMouseUp, hb, countKey,
            List.count_append, List.count_cons]
  | mouseButtonDown b x y =>
      by_cases hb : Input.CheckMouseState b false = mouseState.UNHANDLED
      · simp [Input.UpdateStep, Input.UpdateHandleMouseDown, hb]
      · refine ⟨?_, ?_, ?_⟩ <;>
          simp [Input.UpdateStep, Input.UpdateHandleMouseDown, hb, countKey,
            List.count_append, List.count_cons]

/-- The poll loop over raw samples that never touch key `k` preserves
`k`'s held flag and the counts of `k`'s `KEYDOWN` and `KEYPRESSED`
events. -/
theorem pollLoop_untouched (t k : Nat) :
    ∀ (raw : List SDLEvent) (s : InputState) (q en : Bool),
      (∀ r ∈ raw, touchesKey k r = false) →
      (Input.PollLoop t s q en raw).1.heldKeys k = s.heldKeys k ∧
      countKey keyState.KEYDOWN k (Input.PollLoop t s q en raw).1.events =
        countKey keyState.KEYDOWN k s.events ∧
      countKey keyState.KEYPRESSED k (Input.PollLoop t s q en raw).1.events =
        countKey keyState.KEYPRESSED k s.events := by
  intro raw
  induction raw with
  | nil => intro s q en _; exact ⟨rfl, rfl, rfl⟩
  | cons e rest ih =>
      intro s q en hall
      have he := hall e (List.mem_cons_self e rest)
      have hstep := updateStep_untouched t k s e he
      have hrest := ih (Input.UpdateStep t s e).state
        (q || (Input.UpdateStep t s e).quit)
        (en || (Input.UpdateStep t s e).enabledMouse)
        (fun r hr => hall r (List.mem_cons_of_mem e hr))
      refine ⟨?_, ?_, ?_⟩
      · rw [Input.PollLoop]; rw [hrest.1, hstep.1]
      · rw [Input.PollLoop]; rw [hrest.2.1, hstep.2.1]
      · rw [Input.PollLoop]; rw [hrest.2.2, hstep.2.2]

/-- The sequence of Lua execution requests of a dispatch pass is the
exact-identity lookup of each remaining event, independent of which
executions fail. -/
theorem handleLua_requests (m : List (InputEvent × String))
    (fails : String → Bool) :
    ∀ ev : List InputEvent,
      (Input.HandleLuaCallBacks m fails ev).1 = ev.filterMap (mapFind m) := by
  intro ev
  induction ev with
  | nil => rfl
  | cons e rest ih =>
      cases hf : mapFind m e with
      | none => simp [Input.HandleLuaCallBacks, hf, ih]
      | some command => simp [Input.HandleLuaCallBacks, hf, ih]

/-- The error log of a dispatch pass holds exactly one `Lua::Run` error
line per failing requested command, in request order. -/
theorem handleLua_logs (m : List (InputEvent × String))
    (fails : String → Bool) :
    ∀ ev : List InputEvent,
      (Input.HandleLuaCallBacks m fails ev).2 =
        ((ev.filterMap (mapFind m)).filter fails).map
          (fun command => "Error running " ++ command) := by
  intro ev
  induction ev with
  | nil => rfl
  | cons e rest ih =>
      cases hf : mapFind m e with
      | none => simp [Input.HandleLuaCallBacks, hf, ih]
      | some command =>
          by_cases hfail : fails command = true
          · simp [Input.HandleLuaCallBacks, Lua.RunLogs, hf, hfail, ih]
          · have hfb : fails command = false := by simpa using hfail
            simp [Input.HandleLuaCallBacks, Lua.RunLogs, hf, hfb, ih]

/-- Erasing an event's binding makes its lookup miss. -/
theorem mapFind_erase (m : List (InputEvent × String)) (e : InputEvent) :
    mapFind (Input.UnRegisterCallBack m e) e = none := by
  unfold mapFind Input.UnRegisterCallBack
  rw [List.find?_eq_none.mpr]
  · rfl
  · intro p hp hpe
    rw [List.mem_filter] at hp
    rw [hpe] at hp
    simp at hp

/-- A present key makes the registry's membership test succeed. -/
theorem containsKey_of_find (m : List (InputEvent × String))
    (e : InputEvent) (c : String) (hf : mapFind m e = some c) :
    containsKey m e = true := by
  unfold mapFind at hf
  unfold containsKey
  cases hfind : m.find? (fun p => p.1 == e) with
  | none => rw [hfind] at hf; simp at hf
  | some p =>
      have hmem := List.mem_of_find?_eq_some hfind
      have hpred := List.find?_some hfind
      exact List.any_eq_true.mpr ⟨p, hmem, hpred⟩

/-- Erasing the binding of a key present in a unique-key registry removes
exactly one entry. -/
theorem erase_length (m : List (InputEvent × String)) (e : InputEvent)
    (c : String) (hu : uniqueKeys m) (hf : mapFind m e = some c) :
    (Input.UnRegisterCallBack m e).length + 1 = m.length := by
  induction m with
  | nil => simp [mapFind] at hf
  | cons p rest ih =>
      rw [uniqueKeys, List.pairwise_cons] at hu
      by_cases hp : p.1 = e
      · have hrest : Input.UnRegisterCallBack rest e = rest := by
          unfold Input.UnRegisterCallBack
          rw [List.filter_eq_self]
          intro q hq
          have := hu.1 q hq
          rw [hp] at this
          simp only [Bool.not_eq_true', beq_eq_false_iff_ne]
          exact fun h => this h.symm
        unfold Input.UnRegisterCallBack
        simp only [List.filter_cons]
        rw [show (!(p.1 == e)) = false by simp [hp]]
        rw [show (rest.filter fun q => !(q.1 == e)) =
          Input.UnRegisterCallBack rest e from rfl, hrest]
        simp
      · have hf' : mapFind rest e = some c := by
          unfold mapFind at hf ⊢
          rw [List.find?_cons_of_neg] at hf
          · exact hf
          · simp [hp]
        unfold Input.UnRegisterCallBack
        simp only [List.filter_cons]
        rw [show (!(p.1 == e)) = true by simp [hp]]
        have := ih hu.2 hf'
        unfold Input.UnRegisterCallBack at this
        simp [this]

/-- On `Uint32` ticks with no wraparound, the idle-elapsed computation is
plain subtraction. -/
theorem u32sub_eq (a b : Nat) (hb : b ≤ a) (ha : a < 4294967296) :
    u32sub a b = a - b := by
  unfold u32sub
  omega

/-- Key sub-state ranks are distinct. -/
theorem keyState_rank_inj (a b : keyState) :
    keyState.rank a = keyState.rank b ↔ a = b := by
  cases a <;> cases b <;> simp [keyState.rank]

/-- Mouse sub-state ranks are distinct. -/
theorem mouseState_rank_inj (a b : mouseState) :
    mouseState.rank a = mouseState.rank b ↔ a = b := by
  cases a <;> cases b <;> simp [mouseState.rank]

/-- Membership in the held-key synthesis list. -/
theorem mem_heldEvents (h : Nat → Bool) (e : InputEvent) :
    e ∈ heldEvents h ↔ ∃ j, j < SDLK_LAST ∧ h j = true ∧
      e = InputEvent.keyEvent keyState.KEYPRESSED (Int.ofNat j) := by
  unfold heldEvents
  simp only [List.mem_map, List.mem_filter, List.mem_range]
  constructor
  · rintro ⟨j, ⟨hjr, hjh⟩, hje⟩
    exact ⟨j, hjr, hjh, hje.symm⟩
  · rintro ⟨j, hjr, hjh, hje⟩
    exact ⟨j, ⟨hjr, hjh⟩, hje.symm⟩

/-- Claim C7: the spec-modelled equality and ordering of `InputEvent`
are mutually consistent total relations on the full tuple of fields —
two events are equal exactly when neither orders below the other, the
order is asymmetric, and two mouse events with the same sub-state are
equal exactly when both coordinates agree (so differing coordinates make
them unequal). -/
theorem event_identity_consistent :
    (∀ a b : InputEvent, a = b ↔
      (InputEvent.ltb a b = false ∧ InputEvent.ltb b a = false)) ∧
    (∀ a b : InputEvent,
      ¬(InputEvent.ltb a b = true ∧ InputEvent.ltb b a = true)) ∧
    (∀ (st : mouseState) (x y x' y' : Int),
      InputEvent.mouseEvent st x y = InputEvent.mouseEvent st x' y' ↔
        (x = x' ∧ y = y')) := by
  refine ⟨?_, ?_, ?_⟩
  · intro a b
    cases a with
    | keyEvent st k =>
        cases b with
        | keyEvent st' k' =>
            simp only [InputEvent.keyEvent.injEq, InputEvent.ltb,
              Bool.eq_false_iff, ne_eq, Bool.or_eq_true, Bool.and_eq_true,
              decide_eq_true_eq, beq_iff_eq, not_or, not_and]
            rw [← keyState_rank_inj]
            omega
        | mouseEvent st' x' y' => simp [InputEvent.ltb]
    | mouseEvent st x y =>
        cases b with
        | keyEvent st' k' => simp [InputEvent.ltb]
        | mouseEvent st' x' y' =>
            simp only [InputEvent.mouseEvent.injEq, InputEvent.ltb,
              Bool.eq_false_iff, ne_eq, Bool.or_eq_true, Bool.and_eq_true,
              decide_eq_true_eq, beq_iff_eq, not_or, not_and]
            rw [← mouseState_rank_inj]
            omega
  · intro a b
    cases a with
    | keyEvent st k =>
        cases b with
        | keyEvent st' k' =>
            simp only [InputEvent.ltb, Bool.or_eq_true, Bool.and_eq_true,
              decide_eq_true_eq, beq_iff_eq, not_and, not_or]
            omega
        | mouseEvent st' x' y' => simp [InputEvent.ltb]
    | mouseEvent st x y =>
        cases b with
        | keyEvent st' k' => simp [InputEvent.ltb]
        | mouseEvent st' x' y' =>
            simp only [InputEvent.ltb, Bool.or_eq_true, Bool.and_eq_true,
              decide_eq_true_eq, beq_iff_eq, not_and, not_or]
            omega
  · intro st x y x' y'
    simp

/-- Claim C7 witness: two mouse events with the same button sub-state but
different coordinates are distinct identities. -/
theorem event_identity_consistent_witness :
    InputEvent.mouseEvent mouseState.MOUSELDOWN 1 2 ≠
      InputEvent.mouseEvent mouseState.MOUSELDOWN 3 4 := by
  intro h
  have := (event_identity_consistent.2.2 mouseState.MOUSELDOWN 1 2 3 4).mp h
  exact absurd this.1 (by decide)

/-- Claim C3: evaluation of the character-synthesis function at the
divergent input.  With shift held, the semicolon key (code 59) is
synthesized as the semicolon character itself (code 59), not as the
shifted counterpart colon (code 58) the reference mapping requires; the
neighbouring table entries (shift+1 gives the exclamation mark 33,
shift+a gives 65, bare a gives 97, return gives newline 10) do follow
the reference mapping. -/
theorem typed_shift_semicolon_eval :
    Input.PushTypeEvent shiftHeld [] 59 =
      [InputEvent.keyEvent keyState.KEYTYPED 59] ∧
    Input.PushTypeEvent shiftHeld [] 49 =
      [InputEvent.keyEvent keyState.KEYTYPED 33] ∧
    Input.PushTypeEvent shiftHeld [] 97 =
      [InputEvent.keyEvent keyState.KEYTYPED 65] ∧
    Input.PushTypeEvent (fun _ => false) [] 97 =
      [InputEvent.keyEvent keyState.KEYTYPED 97] ∧
    Input.PushTypeEvent (fun _ => false) [] 13 =
      [InputEvent.keyEvent keyState.KEYTYPED 10] ∧
    Input.PushTypeEvent shiftHeld [] 271 =
      [InputEvent.keyEvent keyState.KEYTYPED 10] ∧
    (58 : Int) ≠ 59 := by
  refine ⟨?_, ?_, ?_, ?_, ?_, ?_, ?_⟩ <;> decide

/-- Claim C1 as stated is false on the code: on a frame whose only raw
sample is an escape key-down, the quit signal is raised but no
`KeyEvent{escape, Down}` is emitted into the frame's event list. -/
theorem escape_claim_counterexample :
    (Input.Update [] collab0 0 state0 [SDLEvent.keyDown SDLK_ESCAPE]).quit
        = true ∧
    InputEvent.keyEvent keyState.KEYDOWN 27 ∉
      (Input.Update [] collab0 0 state0
        [SDLEvent.keyDown SDLK_ESCAPE]).built := by
  refine ⟨rfl, ?_⟩
  have hb : (Input.Update [] collab0 0 state0
      [SDLEvent.keyDown SDLK_ESCAPE]).built = [] := by rfl
  rw [hb]
  exact List.not_mem_nil _

/-- Claim C1 amended: a raw escape key-down raises the quit signal and
emits no key event for the escape key (and leaves the held-key table
unchanged); likewise a raw escape key-up raises the quit signal and
emits no key event for the escape key. -/
theorem escape_transitions_quit_no_event (m : List (InputEvent × String))
    (c : Collab) (t : Nat) (s : InputState)
    (h27 : s.heldKeys SDLK_ESCAPE = false) (hev : s.events = []) :
    ((Input.Update m c t s [SDLEvent.keyDown SDLK_ESCAPE]).quit = true ∧
      (∀ st : keyState, InputEvent.keyEvent st 27 ∉
        (Input.Update m c t s [SDLEvent.keyDown SDLK_ESCAPE]).built) ∧
      (Input.Update m c t s [SDLEvent.keyDown SDLK_ESCAPE]).state.heldKeys
          = s.heldKeys) ∧
    ((Input.Update m c t s [SDLEvent.keyUp SDLK_ESCAPE]).quit = true ∧
      (∀ st : keyState, InputEvent.keyEvent st 27 ∉
        (Input.Update m c t s [SDLEvent.keyUp SDLK_ESCAPE]).built) ∧
      (Input.Update m c t s [SDLEvent.keyUp SDLK_ESCAPE]).state.heldKeys
          = s.heldKeys) := by
  have hmem : ∀ st : keyState,
      InputEvent.keyEvent st 27 ∉ heldEvents s.heldKeys := by
    intro st hm
    rcases (mem_heldEvents s.heldKeys _).mp hm with ⟨j, _, hjh, hje⟩
    have hj27 : j = 27 := by
      have h2 := ((InputEvent.keyEvent.injEq _ _ _ _).mp hje).2
      rw [Int.ofNat_eq_natCast] at h2
      exact_mod_cast h2.symm
    rw [hj27] at hjh
    rw [h27] at hjh
    exact Bool.false_ne_true hjh
  refine ⟨⟨?_, ?_, ?_⟩, ⟨?_, ?_, ?_⟩⟩
  · simp [Input.Update, Input.PollLoop, Input.UpdateStep,
      Input.UpdateHandleKeyDown]
  · intro st
    show InputEvent.keyEvent st 27 ∉
      (Input.PollLoop t s false false [SDLEvent.keyDown SDLK_ESCAPE]).1.events
        ++ heldEvents (Input.PollLoop t s false false
          [SDLEvent.keyDown SDLK_ESCAPE]).1.heldKeys
    have hpl : (Input.PollLoop t s false false
        [SDLEvent.keyDown SDLK_ESCAPE]).1 = s := by
      simp [Input.PollLoop, Input.UpdateStep, Input.UpdateHandleKeyDown]
    rw [hpl, hev]
    simpa using hmem st
  · show (Input.PollLoop t s false false
        [SDLEvent.keyDown SDLK_ESCAPE]).1.heldKeys = s.heldKeys
    simp [Input.PollLoop, Input.UpdateStep, Input.UpdateHandleKeyDown]
  · simp [Input.Update, Input.PollLoop, Input.UpdateStep,
      Input.UpdateHandleKeyUp]
  · intro st
    show InputEvent.keyEvent st 27 ∉
      (Input.PollLoop t s false false [SDLEvent.keyUp SDLK_ESCAPE]).1.events
        ++ heldEvents (Input.PollLoop t s false false
          [SDLEvent.keyUp SDLK_ESCAPE]).1.heldKeys
    have hpl : (Input.PollLoop t s false false
        [SDLEvent.keyUp SDLK_ESCAPE]).1 = s := by
      simp [Input.PollLoop, Input.UpdateStep, Input.UpdateHandleKeyUp]
    rw [hpl, hev]
    simpa using hmem st
  · show (Input.PollLoop t s false false
        [SDLEvent.keyUp SDLK_ESCAPE]).1.heldKeys = s.heldKeys
    simp [Input.PollLoop, Input.UpdateStep, Input.UpdateHandleKeyUp]

/-- Claim C1 amended witness: a concrete escape key-down frame. -/
theorem escape_transitions_quit_no_event_witness :
    (Input.Update [] collab0 0 state0 [SDLEvent.keyDown SDLK_ESCAPE]).quit
        = true ∧
    InputEvent.keyEvent keyState.KEYPRESSED 27 ∉
      (Input.Update [] collab0 0 state0
        [SDLEvent.keyDown SDLK_ESCAPE]).built :=
  ⟨(escape_transitions_quit_no_event [] collab0 0 state0 rfl rfl).1.1,
    (escape_transitions_quit_no_event [] collab0 0 state0 rfl rfl).1.2.1
      keyState.KEYPRESSED⟩

/-- On a frame without the window-close sample, a raw sample raises the
quit signal exactly when it is an escape transition. -/
theorem any_raisesQuit_eq :
    ∀ raw : List SDLEvent, (∀ r ∈ raw, r ≠ SDLEvent.quit) →
      raw.any raisesQuit = raw.any isEscapeTransition := by
  intro raw
  induction raw with
  | nil => intro _; rfl
  | cons e rest ih =>
      intro hq
      have he := hq e (List.mem_cons_self e rest)
      have ih' := ih (fun r hr => hq r (List.mem_cons_of_mem e hr))
      cases e with
      | quit => exact absurd rfl he
      | keyDown sym => simp [raisesQuit, ih']
      | keyUp sym => simp [raisesQuit, ih']
      | mouseMotion x y => simp [raisesQuit, ih']
      | mouseButtonUp b x y => simp [raisesQuit, ih']
      | mouseButtonDown b x y => simp [raisesQuit, ih']

/-- Claim C6: within a frame the quit flag starts false, is only ever
turned on, and the boolean returned by `Input::Update` is exactly
whether the frame's raw samples contain an escape transition (for frames
made of the key and mouse transitions of the spec's raw-sample model);
it depends only on the frame's own samples, never on the previous
frame's state, so it is not sticky across frames. -/
theorem quit_flag_per_frame (m : List (InputEvent × String)) (c : Collab)
    (t : Nat) (s : InputState) (raw : List SDLEvent)
    (hq : ∀ r ∈ raw, r ≠ SDLEvent.quit) :
    (Input.Update m c t s raw).quit = raw.any isEscapeTransition := by
  show (Input.PollLoop t s false false raw).2.1 = raw.any isEscapeTransition
  rw [pollLoop_quit]
  rw [Bool.false_or]
  exact any_raisesQuit_eq raw hq

/-- Claim C6 witness: an escape key-down frame returns true, an empty
frame returns false, from the same prior state. -/
theorem quit_flag_per_frame_witness :
    (Input.Update [] collab0 0 state0 [SDLEvent.keyDown 27]).quit =
      [SDLEvent.keyDown 27].any isEscapeTransition ∧
    (Input.Update [] collab0 0 state0 []).quit =
      List.any [] isEscapeTransition :=
  ⟨quit_flag_per_frame [] collab0 0 state0 [SDLEvent.keyDown 27]
      (by decide),
    quit_flag_per_frame [] collab0 0 state0 [] (by decide)⟩

/-- `countKey` distributes over list append. -/
theorem countKey_append (st : keyState) (k : Nat)
    (a b : List InputEvent) :
    countKey st k (a ++ b) = countKey st k a + countKey st k b :=
  List.count_append _ _ _

/-- `countKey` on the held-key synthesis list. -/
theorem countKey_heldEvents (h : Nat → Bool) (st : keyState) (k : Nat) :
    countKey st k (heldEvents h) =
      if st = keyState.KEYPRESSED ∧ k < SDLK_LAST ∧ h k = true then 1
      else 0 :=
  count_heldEvents h st k

/-- `Input::PushTypeEvent` appends exactly one `KEYTYPED` event. -/
theorem pushTypeEvent_shape (h : Nat → Bool) (ev : List InputEvent)
    (key : Nat) :
    ∃ L : Int, Input.PushTypeEvent h ev key =
      ev ++ [InputEvent.keyEvent keyState.KEYTYPED L] :=
  ⟨_, rfl⟩

/-- Claim C2: held-key repetition protocol for a non-escape key `k` in
range of the held-key table.  A raw key-down frame emits exactly one
`KEYDOWN` and exactly one `KEYPRESSED` for `k` and marks `k` held; any
following frame whose raw samples contain no transition for `k` emits no
`KEYDOWN` and exactly one `KEYPRESSED` for `k` and keeps `k` held (so by
induction every such frame repeats exactly one `Held`); a raw key-up
frame clears the held flag and emits no `KEYPRESSED` for `k`; and from a
cleared flag, frames without transitions for `k` emit no `KEYPRESSED`
for `k` and leave the flag cleared. -/
theorem key_repeat_lifecycle (m : List (InputEvent × String)) (c : Collab)
    (t k : Nat) (hk : k < SDLK_LAST) (hne : k ≠ SDLK_ESCAPE) :
    (∀ s : InputState, s.events = [] →
      countKey keyState.KEYDOWN k
          (Input.Update m c t s [SDLEvent.keyDown k]).built = 1 ∧
      countKey keyState.KEYPRESSED k
          (Input.Update m c t s [SDLEvent.keyDown k]).built = 1 ∧
      (Input.Update m c t s [SDLEvent.keyDown k]).state.heldKeys k = true ∧
      (Input.Update m c t s [SDLEvent.keyDown k]).state.events = []) ∧
    (∀ (s : InputState) (raw : List SDLEvent), s.events = [] →
      s.heldKeys k = true → (∀ r ∈ raw, touchesKey k r = false) →
      countKey keyState.KEYDOWN k (Input.Update m c t s raw).built = 0 ∧
      countKey keyState.KEYPRESSED k (Input.Update m c t s raw).built = 1 ∧
      (Input.Update m c t s raw).state.heldKeys k = true ∧
      (Input.Update m c t s raw).state.events = []) ∧
    (∀ s : InputState, s.events = [] →
      (Input.Update m c t s [SDLEvent.keyUp k]).state.heldKeys k = false ∧
      countKey keyState.KEYPRESSED k
          (Input.Update m c t s [SDLEvent.keyUp k]).built = 0) ∧
    (∀ (s : InputState) (raw : List SDLEvent), s.events = [] →
      s.heldKeys k = false → (∀ r ∈ raw, touchesKey k r = false) →
      countKey keyState.KEYPRESSED k (Input.Update m c t s raw).built = 0 ∧
      (Input.Update m c t s raw).state.heldKeys k = false) := by
  have hbuilt : ∀ (s : InputState) (raw : List SDLEvent),
      (Input.Update m c t s raw).built =
        (Input.PollLoop t s false false raw).1.events ++
          heldEvents (Input.PollLoop t s false false raw).1.heldKeys :=
    fun s raw => rfl
  have hstate : ∀ (s : InputState) (raw : List SDLEvent),
      (Input.Update m c t s raw).state.heldKeys =
        (Input.PollLoop t s false false raw).1.heldKeys :=
    fun s raw => rfl
  have hev0 : ∀ (s : InputState) (raw : List SDLEvent),
      (Input.Update m c t s raw).state.events = [] := fun s raw => rfl
  refine ⟨?_, ?_, ?_, ?_⟩
  · intro s hev
    have hpl : (Input.PollLoop t s false false [SDLEvent.keyDown k]).1 =
        { s with
            events := Input.PushTypeEvent s.heldKeys
              [InputEvent.keyEvent keyState.KEYDOWN (Int.ofNat k)] k,
            heldKeys := fun j => if j = k then true else s.heldKeys j } := by
      simp [Input.PollLoop, Input.UpdateStep, Input.UpdateHandleKeyDown,
        hne, hev]
    obtain ⟨L, hL⟩ := pushTypeEvent_shape s.heldKeys
      [InputEvent.keyEvent keyState.KEYDOWN (Int.ofNat k)] k
    refine ⟨?_, ?_, ?_, hev0 s _⟩
    · simp only [hbuilt, hpl, hL]
      rw [countKey_append, countKey_append, countKey_heldEvents]
      simp [countKey, List.count_cons]
    · simp only [hbuilt, hpl, hL]
      rw [countKey_append, countKey_append, countKey_heldEvents]
      simp [countKey, List.count_cons, hk]
    · rw [hstate, hpl]
      simp
  · intro s raw hev hheld hall
    have hp := pollLoop_untouched t k raw s false false hall
    refine ⟨?_, ?_, ?_, hev0 s _⟩
    · rw [hbuilt, countKey_append, countKey_heldEvents, hp.2.1]
      simp [countKey, hev]
    · rw [hbuilt, countKey_append, countKey_heldEvents, hp.2.2]
      simp [countKey, hev, hp.1, hheld, hk]
    · rw [hstate, hp.1]
      exact hheld
  · intro s hev
    have hpl : (Input.PollLoop t s false false [SDLEvent.keyUp k]).1 =
        { s with
            events := [InputEvent.keyEvent keyState.KEYUP (Int.ofNat k)],
            heldKeys := fun j => if j = k then false else s.heldKeys j } := by
      simp [Input.PollLoop, Input.UpdateStep, Input.UpdateHandleKeyUp,
        hne, hev]
    refine ⟨?_, ?_⟩
    · rw [hstate, hpl]
      simp
    · simp only [hbuilt, hpl]
      rw [countKey_append, countKey_heldEvents]
      simp [countKey, List.count_cons]
  · intro s raw hev hheld hall
    have hp := pollLoop_untouched t k raw s false false hall
    refine ⟨?_, ?_⟩
    · rw [hbuilt, countKey_append, countKey_heldEvents, hp.2.2]
      simp [countKey, hev, hp.1, hheld]
    · rw [hstate, hp.1]
      exact hheld

/-- Claim C2 witness: a concrete key-down frame for the letter a. -/
theorem key_repeat_lifecycle_witness :
    countKey keyState.KEYDOWN 97
        (Input.Update [] collab0 0 state0 [SDLEvent.keyDown 97]).built
      = 1 ∧
    countKey keyState.KEYPRESSED 97
        (Input.Update [] collab0 0 state0 [SDLEvent.keyDown 97]).built
      = 1 :=
  ⟨((key_repeat_lifecycle [] collab0 0 97 (by decide) (by decide)).1
      state0 rfl).1,
   ((key_repeat_lifecycle [] collab0 0 97 (by decide) (by decide)).1
      state0 rfl).2.1⟩

/-- Claim C4: the dispatch stages run in the fixed order UI, console,
hud, Lua callbacks, each stage receiving exactly the list the previous
stage left; under the stage contract (a stage returns a sublist of its
input) an event missing from a stage's output is never in any later
stage's input; the Lua dispatcher acts on exactly the list left after
the hud; and the frame ends with the event list cleared. -/
theorem dispatch_chain_first_wins (m : List (InputEvent × String))
    (c : Collab) (t : Nat) (s : InputState) (raw : List SDLEvent)
    (hui : ∀ l, (c.ui l).Sublist l)
    (hcon : ∀ l, (c.console l).Sublist l)
    (hhud : ∀ l, (c.hud l).Sublist l) :
    (Input.Update m c t s raw).afterUI =
        c.ui (Input.Update m c t s raw).built ∧
    (Input.Update m c t s raw).afterConsole =
        c.console (Input.Update m c t s raw).afterUI ∧
    (Input.Update m c t s raw).afterHud =
        c.hud (Input.Update m c t s raw).afterConsole ∧
    ((Input.Update m c t s raw).afterUI).Sublist
        ((Input.Update m c t s raw).built) ∧
    ((Input.Update m c t s raw).afterConsole).Sublist
        ((Input.Update m c t s raw).afterUI) ∧
    ((Input.Update m c t s raw).afterHud).Sublist
        ((Input.Update m c t s raw).afterConsole) ∧
    (Input.Update m c t s raw).luaRequests =
        ((Input.Update m c t s raw).afterHud).filterMap (mapFind m) ∧
    (∀ e : InputEvent, e ∉ (Input.Update m c t s raw).afterUI →
      e ∉ (Input.Update m c t s raw).afterConsole ∧
      e ∉ (Input.Update m c t s raw).afterHud) ∧
    (∀ e : InputEvent, e ∉ (Input.Update m c t s raw).afterConsole →
      e ∉ (Input.Update m c t s raw).afterHud) ∧
    (Input.Update m c t s raw).state.events = [] := by
  have hreq : (Input.Update m c t s raw).luaRequests =
      ((Input.Update m c t s raw).afterHud).filterMap (mapFind m) :=
    handleLua_requests m c.luaFails _
  have hsubCon : ((Input.Update m c t s raw).afterConsole).Sublist
      ((Input.Update m c t s raw).afterUI) := hcon _
  have hsubHud : ((Input.Update m c t s raw).afterHud).Sublist
      ((Input.Update m c t s raw).afterConsole) := hhud _
  refine ⟨rfl, rfl, rfl, hui _, hsubCon, hsubHud, hreq, ?_, ?_, rfl⟩
  · intro e he
    have h1 : e ∉ (Input.Update m c t s raw).afterConsole :=
      fun hmem => he (hsubCon.subset hmem)
    exact ⟨h1, fun hmem => h1 (hsubHud.subset hmem)⟩
  · intro e he
    exact fun hmem => he (hsubHud.subset hmem)

/-- Claim C4 witness: concrete frame with stages that consume
nothing. -/
theorem dispatch_chain_first_wins_witness :
    (Input.Update [] collab0 0 state0 []).state.events = [] ∧
    (Input.Update [] collab0 0 state0 []).luaRequests =
      ((Input.Update [] collab0 0 state0 []).afterHud).filterMap
        (mapFind []) :=
  ⟨(dispatch_chain_first_wins [] collab0 0 state0 []
      (fun l => List.Sublist.refl l) (fun l => List.Sublist.refl l)
      (fun l => List.Sublist.refl l)).2.2.2.2.2.2.2.2.2,
   (dispatch_chain_first_wins [] collab0 0 state0 []
      (fun l => List.Sublist.refl l) (fun l => List.Sublist.refl l)
      (fun l => List.Sublist.refl l)).2.2.2.2.2.2.1⟩

/-- Claim C5: the Lua dispatch stage looks each remaining event up by
exact identity — the request sequence is the pointwise lookup of the
remaining events, an event whose lookup misses contributes nothing (and
is no error: dispatch proceeds identically), an event with a binding
contributes exactly one execution request, the request sequence does not
depend on which executions fail (a failure never aborts the frame or the
later dispatches), and every failing requested command produces exactly
its logged error line. -/
theorem lua_dispatch_exact_total (m : List (InputEvent × String))
    (fails fails' : String → Bool) (ev : List InputEvent)
    (e : InputEvent) :
    (Input.HandleLuaCallBacks m fails ev).1 = ev.filterMap (mapFind m) ∧
    (Input.HandleLuaCallBacks m fails ev).1 =
        (Input.HandleLuaCallBacks m fails' ev).1 ∧
    (mapFind m e = none →
      Input.HandleLuaCallBacks m fails (e :: ev) =
        Input.HandleLuaCallBacks m fails ev) ∧
    (∀ command, mapFind m e = some command →
      (Input.HandleLuaCallBacks m fails (e :: ev)).1 =
        command :: (Input.HandleLuaCallBacks m fails ev).1) ∧
    (Input.HandleLuaCallBacks m fails ev).2 =
        ((ev.filterMap (mapFind m)).filter fails).map
          (fun command => "Error running " ++ command) := by
  refine ⟨handleLua_requests m fails ev, ?_, ?_, ?_,
    handleLua_logs m fails ev⟩
  · rw [handleLua_requests m fails ev, handleLua_requests m fails' ev]
  · intro hf
    simp [Input.HandleLuaCallBacks, hf]
  · intro command hf
    simp [Input.HandleLuaCallBacks, hf]

/-- Claim C5 witness: one bound and one unbound event. -/
theorem lua_dispatch_exact_total_witness :
    (Input.HandleLuaCallBacks
        [(InputEvent.keyEvent keyState.KEYDOWN 97, "cmd")]
        (fun _ => false)
        [InputEvent.keyEvent keyState.KEYDOWN 97,
          InputEvent.keyEvent keyState.KEYUP 98]).1 =
      [InputEvent.keyEvent keyState.KEYDOWN 97,
        InputEvent.keyEvent keyState.KEYUP 98].filterMap
        (mapFind [(InputEvent.keyEvent keyState.KEYDOWN 97, "cmd")]) :=
  (lua_dispatch_exact_total
      [(InputEvent.keyEvent keyState.KEYDOWN 97, "cmd")]
      (fun _ => false) (fun _ => false)
      [InputEvent.keyEvent keyState.KEYDOWN 97,
        InputEvent.keyEvent keyState.KEYUP 98]
      (InputEvent.keyEvent keyState.KEYDOWN 97)).1

/-- Claim C8: in a unique-key registry holding a binding `c` for `e`,
re-registering `e` with any other command leaves the registry unchanged
(insert semantics: first binding wins), dispatching `e` still requests
`c`, and one unregister call removes the single binding for `e`. -/
theorem registry_insert_first_wins (m : List (InputEvent × String))
    (e : InputEvent) (c c' : String) (hu : uniqueKeys m)
    (hf : mapFind m e = some c) :
    Input.RegisterCallBack m e c' = m ∧
    (∀ fails, (Input.HandleLuaCallBacks m fails [e]).1 = [c]) ∧
    mapFind (Input.UnRegisterCallBack m e) e = none ∧
    (Input.UnRegisterCallBack m e).length + 1 = m.length := by
  refine ⟨?_, ?_, mapFind_erase m e, erase_length m e c hu hf⟩
  · unfold Input.RegisterCallBack
    rw [containsKey_of_find m e c hf]
    simp
  · intro fails
    simp [Input.HandleLuaCallBacks, hf]

/-- Claim C8 witness: a concrete one-entry registry. -/
theorem registry_insert_first_wins_witness :
    Input.RegisterCallBack
        [(InputEvent.keyEvent keyState.KEYDOWN 97, "cmd")]
        (InputEvent.keyEvent keyState.KEYDOWN 97) "other" =
      [(InputEvent.keyEvent keyState.KEYDOWN 97, "cmd")] ∧
    mapFind
        (Input.UnRegisterCallBack
          [(InputEvent.keyEvent keyState.KEYDOWN 97, "cmd")]
          (InputEvent.keyEvent keyState.KEYDOWN 97))
        (InputEvent.keyEvent keyState.KEYDOWN 97) = none :=
  ⟨(registry_insert_first_wins
      [(InputEvent.keyEvent keyState.KEYDOWN 97, "cmd")]
      (InputEvent.keyEvent keyState.KEYDOWN 97) "cmd" "other"
      (by simp [uniqueKeys]) rfl).1,
   (registry_insert_first_wins
      [(InputEvent.keyEvent keyState.KEYDOWN 97, "cmd")]
      (InputEvent.keyEvent keyState.KEYDOWN 97) "cmd" "other"
      (by simp [uniqueKeys]) rfl).2.2.1⟩

/-- Claim C9: the button-transition translation maps the three buttons
times two directions and wheel-up/down releases onto the eight mouse
sub-states; a wheel transition in the down direction is unhandled; any
unrecognized button id is unhandled in both directions; and an
unhandled transition leaves the pipeline state untouched — no event is
emitted and no error is raised. -/
theorem mouse_button_mapping (t : Nat) :
    (Input.CheckMouseState 1 false = mouseState.MOUSELDOWN ∧
      Input.CheckMouseState 1 true = mouseState.MOUSELUP ∧
      Input.CheckMouseState 2 false = mouseState.MOUSEMDOWN ∧
      Input.CheckMouseState 2 true = mouseState.MOUSEMUP ∧
      Input.CheckMouseState 3 false = mouseState.MOUSERDOWN ∧
      Input.CheckMouseState 3 true = mouseState.MOUSERUP ∧
      Input.CheckMouseState 4 true = mouseState.MOUSEWUP ∧
      Input.CheckMouseState 5 true = mouseState.MOUSEWDOWN ∧
      Input.CheckMouseState 4 false = mouseState.UNHANDLED ∧
      Input.CheckMouseState 5 false = mouseState.UNHANDLED) ∧
    (∀ (b : Nat) (up : Bool), b ≠ 1 → b ≠ 2 → b ≠ 3 → b ≠ 4 → b ≠ 5 →
      Input.CheckMouseState b up = mouseState.UNHANDLED) ∧
    (∀ (s : InputState) (b x y : Nat),
      Input.CheckMouseState b true = mouseState.UNHANDLED →
      Input.UpdateStep t s (SDLEvent.mouseButtonUp b x y) =
        ⟨s, false, false⟩) ∧
    (∀ (s : InputState) (b x y : Nat),
      Input.CheckMouseState b false = mouseState.UNHANDLED →
      Input.UpdateStep t s (SDLEvent.mouseButtonDown b x y) =
        ⟨s, false, false⟩) := by
  refine ⟨?_, ?_, ?_, ?_⟩
  · exact ⟨rfl, rfl, rfl, rfl, rfl, rfl, rfl, rfl, rfl, rfl⟩
  · intro b up h1 h2 h3 h4 h5
    simp [Input.CheckMouseState, h1, h2, h3, h4, h5]
  · intro s b x y hb
    simp [Input.UpdateStep, Input.UpdateHandleMouseUp, hb]
  · intro s b x y hb
    simp [Input.UpdateStep, Input.UpdateHandleMouseDown, hb]

/-- Claim C9 witness: a wheel-down button-down and an out-of-range
button id are both dropped. -/
theorem mouse_button_mapping_witness :
    Input.UpdateStep 0 state0 (SDLEvent.mouseButtonDown 5 7 8) =
      ⟨state0, false, false⟩ ∧
    Input.CheckMouseState 9 true = mouseState.UNHANDLED :=
  ⟨(mouse_button_mapping 0).2.2.2 state0 5 7 8 rfl,
   (mouse_button_mapping 0).2.1 9 true (by decide) (by decide) (by decide)
      (by decide) (by decide)⟩

/-- Claim C10: a raw mouse motion frame appends `MouseEvent{Motion, x,
y}` to the frame's list, records the `Video::EnableMouse` call and
stamps `lastMouseMove` with the current tick; and on any frame, with no
tick wraparound, the `Video::DisableMouse` pointer-hide side effect
fires exactly when the elapsed ticks since the last mouse activity
exceed the configured fade threshold and the interface claims no
focus. -/
theorem mouse_motion_idle_fade (m : List (InputEvent × String))
    (c : Collab) (t : Nat) (s : InputState) (x y : Nat)
    (raw : List SDLEvent) :
    (Input.Update m c t s [SDLEvent.mouseMotion x y]).built =
      (s.events ++
        [InputEvent.mouseEvent mouseState.MOUSEMOTION (Int.ofNat x)
          (Int.ofNat y)]) ++ heldEvents s.heldKeys ∧
    (Input.Update m c t s [SDLEvent.mouseMotion x y]).state.lastMouseMove
        = t ∧
    (Input.Update m c t s [SDLEvent.mouseMotion x y]).enabledMouse
        = true ∧
    ((Input.Update m c t s raw).state.lastMouseMove ≤ t →
      t < 4294967296 →
      ((Input.Update m c t s raw).disabledMouse = true ↔
        (t - (Input.Update m c t s raw).state.lastMouseMove > c.mouseFade ∧
          c.uiActive = false))) := by
  have hpl : (Input.PollLoop t s false false [SDLEvent.mouseMotion x y]).1 =
      { s with
          events := s.events ++
            [InputEvent.mouseEvent mouseState.MOUSEMOTION (Int.ofNat x)
              (Int.ofNat y)],
          lastMouseMove := t } := by
    simp [Input.PollLoop, Input.UpdateStep, Input.UpdateHandleMouseMotion]
  refine ⟨?_, ?_, ?_, ?_⟩
  · show (Input.PollLoop t s false false [SDLEvent.mouseMotion x y]).1.events
        ++ heldEvents (Input.PollLoop t s false false
          [SDLEvent.mouseMotion x y]).1.heldKeys = _
    rw [hpl]
  · show (Input.PollLoop t s false false [SDLEvent.mouseMotion x y]).1.lastMouseMove = t
    rw [hpl]
  · show (Input.PollLoop t s false false [SDLEvent.mouseMotion x y]).2.2 = true
    simp [Input.PollLoop, Input.UpdateStep]
  · intro hle hlt
    have hlast : (Input.Update m c t s raw).state.lastMouseMove =
        (Input.PollLoop t s false false raw).1.lastMouseMove := rfl
    show (decide (u32sub t
        (Input.PollLoop t s false false raw).1.lastMouseMove > c.mouseFade)
          && !c.uiActive) = true ↔ _
    rw [hlast] at hle
    rw [u32sub_eq t _ hle hlt]
    rw [Bool.and_eq_true, decide_eq_true_eq, Bool.not_eq_true']
    rw [hlast]

/-- Claim C10 witness: a concrete idle frame past the fade threshold
hides the pointer, and a concrete motion frame stamps the activity
time. -/
theorem mouse_motion_idle_fade_witness :
    (Input.Update [] collab0 1000 state0 []).disabledMouse = true ∧
    (Input.Update [] collab0 42 state0
        [SDLEvent.mouseMotion 3 4]).state.lastMouseMove = 42 :=
  ⟨((mouse_motion_idle_fade [] collab0 1000 state0 0 0 []).2.2.2
      (by decide) (by decide)).mpr (by decide),
   (mouse_motion_idle_fade [] collab0 42 state0 3 4 []).2.1⟩
